import Mathlib

/-!
Verification of the attendance backend (`app.py`, `database.py`, `config.py`).

The development shallowly embeds the core decision logic of the repository:

* the working-hours string helpers `calculate_working_hours`,
  `parse_working_hours_to_minutes` and `format_minutes_to_hours` from
  `app.py` (decimal printing is modelled by `natDigits`, and the two
  `re.search` calls of the parser by a leftmost-match scanner `searchNum`);
* the attendance decision logic of the `/attendance` endpoint
  (`attendanceStep` for the per-record decision, `attendanceEndpoint` for
  the mode gate, teacher lookup and the Firestore writes performed by
  `database.create_check_in` / `database.create_check_out`);
* the `/register` endpoint (`registerEndpoint`) with its mode gate,
  field validation and duplicate-fingerprint check.

Times of day (`HH:MM:SS` strings parsed with `strptime` in the source) are
embedded as `Time` triples of naturals; `datetime.combine`/`timedelta`
arithmetic becomes arithmetic on seconds-since-midnight, with the source's
midnight normalisation (`if current_dt < check_in_dt: current_dt +=
timedelta(days=1)`) kept explicit.
-/

namespace AttSys

/-- One decimal digit as a character, as Python's decimal formatting emits it. -/
def digitChar (d : Nat) : Char :=
  if d = 0 then '0' else if d = 1 then '1' else if d = 2 then '2'
  else if d = 3 then '3' else if d = 4 then '4' else if d = 5 then '5'
  else if d = 6 then '6' else if d = 7 then '7' else if d = 8 then '8' else '9'

/-- Numeric value of a digit character (as `int()` reads it). -/
def charVal (c : Char) : Nat := c.toNat - 48

/-- Value of a digit string, most significant digit first. -/
def digitsToNat (l : List Char) : Nat := l.foldl (fun a c => a * 10 + charVal c) 0

/-- Fuel-driven decimal printer (little helper for `natDigits`). -/
def natDigitsAux : Nat → Nat → List Char
  | 0, _ => []
  | fuel + 1, n =>
    if n < 10 then [digitChar n]
    else natDigitsAux fuel (n / 10) ++ [digitChar (n % 10)]

/-- Decimal digits of `n`, most significant first: the embedding of Python's
decimal rendering of a nonnegative integer inside an f-string. -/
def natDigits (n : Nat) : List Char := natDigitsAux (n + 1) n

/-- Maximal leading run of digit characters and the rest: the greedy part of
the regex `(\d+)` matched at the current position. -/
def takeDigits : List Char → List Char × List Char
  | [] => ([], [])
  | c :: cs =>
    if c.isDigit then
      let p := takeDigits cs
      (c :: p.1, p.2)
    else ([], c :: cs)

/-- Skip whitespace: the `\s*` part of the source's regexes. -/
def skipSpaces : List Char → List Char
  | [] => []
  | c :: cs => if c.isWhitespace then skipSpaces cs else c :: cs

/-- Literal matching at the head of a list (regex literal such as `hour`). -/
def leadsWith : List Char → List Char → Bool
  | [], _ => true
  | _ :: _, [] => false
  | a :: as, b :: bs => a == b && leadsWith as bs

/-- One attempt of the regex `(\d+)\s*LIT` anchored at the current position.
The literal starts with a letter, so only the maximal digit run can be the
group: shorter greedy backtracks would face another digit where the literal
must start. -/
def matchNumBefore (lit : List Char) (l : List Char) : Option Nat :=
  match l with
  | [] => none
  | c :: cs =>
    if c.isDigit then
      let p := takeDigits (c :: cs)
      if leadsWith lit (skipSpaces p.2) then some (digitsToNat p.1) else none
    else none

/-- Leftmost search of `(\d+)\s*LIT`, the embedding of `re.search` as used by
`parse_working_hours_to_minutes`. -/
def searchNum (lit : List Char) : List Char → Option Nat
  | [] => none
  | c :: cs =>
    match matchNumBefore lit (c :: cs) with
    | some n => some n
    | none => searchNum lit cs

/-- The regex literal `hour` (with the optional `s` left to the suffix). -/
def hourLit : List Char := ['h', 'o', 'u', 'r']

/-- The regex literal `minute` (with the optional `s` left to the suffix). -/
def minuteLit : List Char := ['m', 'i', 'n', 'u', 't', 'e']

/-- The literal chunk between the two numbers of a working-hours string. -/
def hoursSep : List Char := [' ', 'h', 'o', 'u', 'r', 's', ' ']

/-- The literal tail of a working-hours string. -/
def minutesSuffix : List Char := [' ', 'm', 'i', 'n', 'u', 't', 'e', 's']

/-- `app.parse_working_hours_to_minutes`: empty input gives 0, otherwise the
two regex searches with default 0, combined as `hours * 60 + minutes`. -/
def parse_working_hours_to_minutes (s : String) : Nat :=
  if s.data = [] then 0
  else
    let hours := (searchNum hourLit s.data).getD 0
    let minutes := (searchNum minuteLit s.data).getD 0
    hours * 60 + minutes

/-- `app.format_minutes_to_hours`: `f"{minutes // 60} hours {minutes % 60} minutes"`. -/
def format_minutes_to_hours (minutes : Nat) : String :=
  String.mk (natDigits (minutes / 60) ++ hoursSep ++ natDigits (minutes % 60) ++ minutesSuffix)

/-- A time of day `HH:MM:SS` as produced by `strptime(.., "%H:%M:%S")`. -/
structure Time where
  hour : Nat
  minute : Nat
  second : Nat
deriving DecidableEq

/-- Seconds since midnight of a time of day. -/
def Time.toSeconds (t : Time) : Nat := t.hour * 3600 + t.minute * 60 + t.second

/-- Elapsed seconds from `start` to `stop`, with the source's midnight
normalisation: when `stop` precedes `start` the stop instant is advanced by
one day before differencing. -/
def normalizedElapsedSeconds (start stop : Time) : Nat :=
  if stop.toSeconds < start.toSeconds then stop.toSeconds + 86400 - start.toSeconds
  else stop.toSeconds - start.toSeconds

/-- `int(time_diff.total_seconds() / 60)` of the source: elapsed whole minutes. -/
def minutesPassed (start stop : Time) : Nat := normalizedElapsedSeconds start stop / 60

/-- `app.calculate_working_hours`: the elapsed seconds (midnight-normalised)
rendered as `f"{total_seconds // 3600} hours {(total_seconds % 3600) // 60} minutes"`. -/
def calculate_working_hours (check_in check_out : Time) : String :=
  let ts := normalizedElapsedSeconds check_in check_out
  String.mk (natDigits (ts / 3600) ++ hoursSep ++ natDigits (ts % 3600 / 60) ++ minutesSuffix)

/-- One date's attendance dict: the keys `check_in`, `check_out`,
`working_hours`, each possibly absent. -/
structure DailyAttendance where
  check_in : Option Time
  check_out : Option Time
  working_hours : Option String
deriving DecidableEq

/-- The user-facing outcome of one attendance decision (`action` field of the
JSON responses of the decision cases). -/
inductive Outcome where
  | check_in
  | check_out (working_hours : String)
  | cooldown (remaining_minutes : Nat)
  | completed
  | invalid_state
deriving DecidableEq

/-- The record written by `database.create_check_in`: only `check_in` set. -/
def newCheckInRecord (now : Time) : DailyAttendance :=
  { check_in := some now, check_out := none, working_hours := none }

/-- The decision core of the `/attendance` endpoint (`app.py`, cases 1-4):
input is today's record as the handler reads it (`None`, or a dict that may
be empty — an empty dict is falsy in Python, hence the explicit emptiness
test), output is the outcome and the record after the event. -/
def attendanceStep (cooldownMinutes : Nat) (now : Time) (today : Option DailyAttendance) :
    Outcome × DailyAttendance :=
  match today with
  | none => (Outcome.check_in, newCheckInRecord now)
  | some r =>
    if r.check_in.isNone && r.check_out.isNone && r.working_hours.isNone then
      (Outcome.check_in, newCheckInRecord now)
    else
      match r.check_in, r.check_out with
      | some ci, none =>
        if minutesPassed ci now < cooldownMinutes then
          (Outcome.cooldown (cooldownMinutes - minutesPassed ci now), r)
        else
          (Outcome.check_out (calculate_working_hours ci now),
           { r with check_out := some now,
                    working_hours := some (calculate_working_hours ci now) })
      | some _, some _ => (Outcome.completed, r)
      | none, _ => (Outcome.invalid_state, r)

/-- The per-(person, date) states of the spec's state-machine view. -/
inductive AttState where
  | empty
  | checkedIn
  | completed
  | invalid
deriving DecidableEq

/-- Classify a stored record: absent or an empty dict is `empty` (both are
falsy to the handler), check-in only is `checkedIn`, both times is
`completed`, anything else is `invalid`. -/
def stateOf : Option DailyAttendance → AttState
  | none => AttState.empty
  | some r =>
    match r.check_in, r.check_out with
    | some _, none => AttState.checkedIn
    | some _, some _ => AttState.completed
    | none, none => if r.working_hours.isNone then AttState.empty else AttState.invalid
    | none, some _ => AttState.invalid

/-- Process a sequence of attendance events for one (person, date) pair,
starting from a stored record. -/
def runEvents (cooldownMinutes : Nat) : List Time → Option DailyAttendance → Option DailyAttendance
  | [], r => r
  | t :: ts, r => runEvents cooldownMinutes ts (some (attendanceStep cooldownMinutes t r).2)

/-- The `check_in` value of a possibly-absent record. -/
def recCheckIn (r : Option DailyAttendance) : Option Time :=
  r.bind fun d => d.check_in

/-- The `check_out` value of a possibly-absent record. -/
def recCheckOut (r : Option DailyAttendance) : Option Time :=
  r.bind fun d => d.check_out

/-- A teacher document of the Firestore `teachers` collection: document id,
`name`, `department`, `fingerprint_id`, and the date-keyed `attendance` map
(embedded as an association list with dict get/set semantics). -/
structure Teacher where
  teacher_id : String
  name : String
  department : String
  fingerprint_id : Int
  attendance : List (String × DailyAttendance)
deriving DecidableEq

/-- The state the two endpoints read and write: the `system/mode` document
and the `teachers` collection. -/
structure SystemState where
  mode : String
  teachers : List Teacher
deriving DecidableEq

/-- `attendance.get(date_str)` on the date-keyed map. -/
def lookupDate (att : List (String × DailyAttendance)) (d : String) : Option DailyAttendance :=
  match att with
  | [] => none
  | (k, v) :: rest => if k = d then some v else lookupDate rest d

/-- `attendance[date_str] = r` on the date-keyed map. -/
def setDate (att : List (String × DailyAttendance)) (d : String) (r : DailyAttendance) :
    List (String × DailyAttendance) :=
  match att with
  | [] => [(d, r)]
  | (k, v) :: rest => if k = d then (d, r) :: rest else (k, v) :: setDate rest d r

/-- `database.get_teacher_by_fingerprint_id`: first teacher whose
`fingerprint_id` equals the scanned one. -/
def get_teacher_by_fingerprint_id (teachers : List Teacher) (fp : Int) : Option Teacher :=
  teachers.find? fun u => u.fingerprint_id == fp

/-- `database.create_check_in`: store `{check_in: time}` under the date,
replacing whatever record the date held. -/
def create_check_in (att : List (String × DailyAttendance)) (d : String) (now : Time) :
    List (String × DailyAttendance) :=
  setDate att d (newCheckInRecord now)

/-- `database.create_check_out`: re-read the date's record (an empty dict if
absent) and add `check_out` and `working_hours` to it. -/
def create_check_out (att : List (String × DailyAttendance)) (d : String) (now : Time)
    (working_hours : String) : List (String × DailyAttendance) :=
  let r0 : DailyAttendance := match lookupDate att d with
    | none => { check_in := none, check_out := none, working_hours := none }
    | some r => r
  setDate att d { r0 with check_out := some now, working_hours := some working_hours }

/-- Apply an attendance-map mutation to every teacher document with the given
document id (Firestore updates the document at that path). -/
def updateAttendance (st : SystemState) (tid : String)
    (f : List (String × DailyAttendance) → List (String × DailyAttendance)) : SystemState :=
  { st with
    teachers := st.teachers.map fun u =>
      if u.teacher_id == tid then { u with attendance := f u.attendance } else u }

/-- The stored attendance record of the teacher document `tid` for date `d`. -/
def storedRecord (st : SystemState) (tid d : String) : Option DailyAttendance :=
  match st.teachers.find? (fun u => u.teacher_id == tid) with
  | none => none
  | some u => lookupDate u.attendance d

/-- The responses of the `/attendance` endpoint that the claims talk about:
the mode-gate rejection, the unknown-fingerprint rejection, and the decision
outcomes. -/
inductive Response where
  | modeError (mode : String)
  | notFound
  | act (o : Outcome)
deriving DecidableEq

/-- The `/attendance` endpoint (`app.attendance`), for a JSON request with a
well-formed integer `fingerprint_id`: mode gate, teacher lookup, decision,
and the database write of the check-in / check-out branches. -/
def attendanceEndpoint (cooldownMinutes : Nat) (st : SystemState) (fp : Int)
    (today : String) (now : Time) : Response × SystemState :=
  if st.mode = "attendance" then
    match get_teacher_by_fingerprint_id st.teachers fp with
    | none => (Response.notFound, st)
    | some t =>
      let res := attendanceStep cooldownMinutes now (lookupDate t.attendance today)
      match res.1 with
      | Outcome.check_in =>
        (Response.act Outcome.check_in,
         updateAttendance st t.teacher_id fun att => create_check_in att today now)
      | Outcome.check_out wh =>
        (Response.act (Outcome.check_out wh),
         updateAttendance st t.teacher_id fun att => create_check_out att today now wh)
      | o => (Response.act o, st)
  else (Response.modeError st.mode, st)

/-- Python's `str.strip()`: drop whitespace from both ends. -/
def pyStrip (s : String) : String :=
  String.mk (((s.data.dropWhile Char.isWhitespace).reverse.dropWhile Char.isWhitespace).reverse)

/-- The responses of the `/register` endpoint that the claims talk about. -/
inductive RegResponse where
  | modeError (mode : String)
  | invalid
  | duplicate
  | success (teacher_id : String)
deriving DecidableEq

/-- The `/register` endpoint (`app.register`) for a POST request whose fields
are already decoded (a missing or non-integer `fingerprint_id` is `none`):
mode gate, stripping and validation of the fields, duplicate-fingerprint
check, then `database.register_teacher` with a fresh document id (the id the
handler builds from the clock is passed in as `newId`). -/
def registerEndpoint (st : SystemState) (name department : String) (fp : Option Int)
    (newId : String) : RegResponse × SystemState :=
  if st.mode = "register" then
    let n := pyStrip name
    let dep := pyStrip department
    if n = "" || dep = "" || fp.isNone then (RegResponse.invalid, st)
    else
      match fp with
      | none => (RegResponse.invalid, st)
      | some f =>
        match get_teacher_by_fingerprint_id st.teachers f with
        | some _ => (RegResponse.duplicate, st)
        | none =>
          (RegResponse.success newId,
           { st with
             teachers := st.teachers ++
               [{ teacher_id := newId, name := n, department := dep,
                  fingerprint_id := f, attendance := [] }] })
  else (RegResponse.modeError st.mode, st)

/-- 09:00:00, the check-in time of the spec's worked scenario. -/
def t900 : Time := ⟨9, 0, 0⟩

/-- 09:10:00. -/
def t910 : Time := ⟨9, 10, 0⟩

/-- 09:15:00. -/
def t915 : Time := ⟨9, 15, 0⟩

/-- A concrete date key. -/
def d0 : String := "2026-01-01"

/-- A record holding only a 09:00:00 check-in. -/
def wRec : DailyAttendance := ⟨some t900, none, none⟩

/-- A completed record: checked in 09:00:00, out 09:15:00. -/
def wRecDone : DailyAttendance := ⟨some t900, some t915, some (format_minutes_to_hours 15)⟩

/-- A teacher checked in at 09:00:00 on `d0`. -/
def wTeacher : Teacher := ⟨"t1", "Alice", "CSE", 7, [("2026-01-01", wRec)]⟩

/-- A registered teacher with no attendance yet. -/
def wTeacherNew : Teacher := ⟨"t1", "Alice", "CSE", 7, []⟩

/-- A teacher whose `d0` record is completed. -/
def wTeacherDone : Teacher := ⟨"t1", "Alice", "CSE", 7, [("2026-01-01", wRecDone)]⟩

/-- Attendance mode, one teacher checked in on `d0`. -/
def wSt : SystemState := ⟨"attendance", [wTeacher]⟩

/-- Attendance mode, one teacher with no attendance records. -/
def wStNew : SystemState := ⟨"attendance", [wTeacherNew]⟩

/-- Attendance mode, one teacher already completed on `d0`. -/
def wStDone : SystemState := ⟨"attendance", [wTeacherDone]⟩

/-- Register mode, fingerprint 7 already bound. -/
def regSt : SystemState := ⟨"register", [wTeacherNew]⟩

-- temporary sanity checks against the worked scenarios of the spec
example : (attendanceStep 15 t910 (some wRec)).1 = Outcome.cooldown 5 := by decide
example : (attendanceStep 15 t915 (some wRec)).1 = Outcome.check_out ("0 hours 15 minutes") := by
  decide
example : (attendanceStep 15 ⟨17, 30, 0⟩ (some wRec)).1 = Outcome.check_out ("8 hours 30 minutes") := by
  decide
example :
    (attendanceStep 15 ⟨0, 10, 0⟩ (some ⟨some ⟨23, 50, 0⟩, none, none⟩)).1
      = Outcome.check_out ("0 hours 20 minutes") := by decide
example : parse_working_hours_to_minutes (format_minutes_to_hours 510) = 510 := by decide
example : (attendanceEndpoint 15 wSt 7 d0 t910).1 = Response.act (Outcome.cooldown 5) := by decide
example : (attendanceEndpoint 15 regSt 7 d0 t910).1 = Response.modeError ("register") := by decide
example : (registerEndpoint regSt ("Bob") ("EEE") (some 7) ("t2")).1 = RegResponse.duplicate := by
  decide
example : (registerEndpoint regSt ("") ("EEE") (some 7) ("t2")).1 = RegResponse.invalid := by
  decide

theorem attendanceStep_absent (cd : Nat) (now : Time) :
    attendanceStep cd now none = (Outcome.check_in, newCheckInRecord now) := rfl

theorem attendanceStep_cooldown_case (cd : Nat) (now : Time) (r : DailyAttendance) (ci : Time)
    (hci : r.check_in = some ci) (hco : r.check_out = none)
    (h : minutesPassed ci now < cd) :
    attendanceStep cd now (some r) = (Outcome.cooldown (cd - minutesPassed ci now), r) := by
  obtain ⟨a, b, w⟩ := r
  simp only [DailyAttendance.check_in, DailyAttendance.check_out] at hci hco
  subst hci; subst hco
  simp [attendanceStep, h]

theorem attendanceStep_checkout_case (cd : Nat) (now : Time) (r : DailyAttendance) (ci : Time)
    (hci : r.check_in = some ci) (hco : r.check_out = none)
    (h : cd ≤ minutesPassed ci now) :
    attendanceStep cd now (some r)
      = (Outcome.check_out (calculate_working_hours ci now),
         { r with check_out := some now,
                  working_hours := some (calculate_working_hours ci now) }) := by
  obtain ⟨a, b, w⟩ := r
  simp only [DailyAttendance.check_in, DailyAttendance.check_out] at hci hco
  subst hci; subst hco
  simp [attendanceStep, Nat.not_lt.mpr h]

theorem attendanceStep_completed_case (cd : Nat) (now : Time) (r : DailyAttendance)
    (ci co : Time) (hci : r.check_in = some ci) (hco : r.check_out = some co) :
    attendanceStep cd now (some r) = (Outcome.completed, r) := by
  obtain ⟨a, b, w⟩ := r
  simp only [DailyAttendance.check_in, DailyAttendance.check_out] at hci hco
  subst hci; subst hco
  simp [attendanceStep]

theorem attendanceStep_preserves_check_in (cd : Nat) (now : Time) (r : Option DailyAttendance)
    (v : Time) (h : recCheckIn r = some v) :
    ((attendanceStep cd now r).2).check_in = some v := by
  match r with
  | none => simp [recCheckIn] at h
  | some ⟨a, b, w⟩ =>
    simp only [recCheckIn, Option.bind_some] at h
    subst h
    cases b <;> cases w <;>
      simp [attendanceStep] <;> split <;> simp

theorem attendanceStep_preserves_check_out (cd : Nat) (now : Time) (r : Option DailyAttendance)
    (v : Time) (h : recCheckOut r = some v) :
    ((attendanceStep cd now r).2).check_out = some v := by
  match r with
  | none => simp [recCheckOut] at h
  | some ⟨a, b, w⟩ =>
    simp only [recCheckOut, Option.bind_some] at h
    subst h
    cases a <;> cases w <;> simp [attendanceStep]

theorem lookupDate_setDate (att : List (String × DailyAttendance)) (d : String)
    (r : DailyAttendance) : lookupDate (setDate att d r) d = some r := by
  induction att with
  | nil => simp [setDate, lookupDate]
  | cons kv rest ih =>
    obtain ⟨k, v⟩ := kv
    by_cases hk : k = d
    · simp [setDate, hk, lookupDate]
    · simp [setDate, hk, lookupDate, ih]

theorem find?_map_eq (g : Teacher → Teacher) (q : Teacher → Bool) (l : List Teacher)
    (h : ∀ x, q (g x) = q x) :
    (l.map g).find? q = Option.map g (l.find? q) := by
  induction l with
  | nil => rfl
  | cons a l ih =>
    by_cases ha : q a = true
    · rw [List.map_cons, List.find?_cons_of_pos, List.find?_cons_of_pos] <;>
        simp [h, ha]
    · rw [List.map_cons, List.find?_cons_of_neg, List.find?_cons_of_neg, ih] <;>
        simp [h, ha]

theorem storedRecord_updateAttendance (st : SystemState) (tid d : String) (t : Teacher)
    (f : List (String × DailyAttendance) → List (String × DailyAttendance))
    (hfind : st.teachers.find? (fun u => u.teacher_id == tid) = some t) :
    storedRecord (updateAttendance st tid f) tid d = lookupDate (f t.attendance) d := by
  have ht : (t.teacher_id == tid) = true := by
    have h2 := List.find?_some hfind
    simpa using h2
  unfold storedRecord updateAttendance
  rw [find?_map_eq]
  · have ht2 : t.teacher_id = tid := by simpa using ht
    rw [hfind]
    simp [ht2]
  · intro x
    by_cases hx : (x.teacher_id == tid) = true <;> simp [hx]

theorem calculate_working_hours_eq_format (ci now : Time) :
    calculate_working_hours ci now
      = format_minutes_to_hours (normalizedElapsedSeconds ci now / 60) := by
  unfold calculate_working_hours format_minutes_to_hours
  dsimp only
  have h1 : normalizedElapsedSeconds ci now / 3600 = normalizedElapsedSeconds ci now / 60 / 60 := by
    omega
  have h2 : normalizedElapsedSeconds ci now % 3600 / 60
      = normalizedElapsedSeconds ci now / 60 % 60 := by
    omega
  rw [h1, h2]

/-- C1: for a person whose record on date `D` has a check-in and no
check-out, an attendance event at elapsed time (midnight-normalised, in
seconds) strictly below the cooldown yields the cooldown rejection carrying
`remaining_minutes = cooldown - (elapsed in whole minutes)`, and the whole
store — in particular the record for (person, `D`) — is unchanged. -/
theorem c1_cooldown_rejection (cd : Nat) (st : SystemState) (fp : Int) (d : String)
    (now : Time) (t : Teacher) (r : DailyAttendance) (ci : Time)
    (hmode : st.mode = "attendance")
    (hfind : get_teacher_by_fingerprint_id st.teachers fp = some t)
    (hrec : lookupDate t.attendance d = some r)
    (hci : r.check_in = some ci) (hco : r.check_out = none)
    (helapsed : normalizedElapsedSeconds ci now < cd * 60) :
    attendanceEndpoint cd st fp d now
      = (Response.act (Outcome.cooldown (cd - normalizedElapsedSeconds ci now / 60)), st) := by
  have hmp : minutesPassed ci now < cd := by
    unfold minutesPassed; omega
  have hstep := attendanceStep_cooldown_case cd now r ci hci hco hmp
  simp [attendanceEndpoint, hmode, hfind, hrec, hstep, minutesPassed]

/-- Witness for C1: the spec scenario — check-in 09:00:00, event 09:10:00,
cooldown 15 → rejection with 5 minutes remaining, store untouched. -/
theorem c1_witness :
    attendanceEndpoint 15 wSt 7 d0 t910 = (Response.act (Outcome.cooldown 5), wSt) :=
  c1_cooldown_rejection 15 wSt 7 d0 t910 wTeacher wRec t900 rfl (by decide) (by decide)
    rfl rfl (by decide)

/-- C2: for a person whose record on date `D` has a check-in and no
check-out, an event at elapsed time (midnight-normalised) at or above the
cooldown — the boundary counts as satisfying it — yields a check-out, sets
`check_out` to the current time, and sets the working duration to the string
formatted from `elapsed_minutes` with hours `elapsed_minutes / 60` and
minutes `elapsed_minutes % 60`. -/
theorem c2_checkout (cd : Nat) (st : SystemState) (fp : Int) (d : String)
    (now : Time) (t : Teacher) (r : DailyAttendance) (ci : Time)
    (hmode : st.mode = "attendance")
    (hfind : get_teacher_by_fingerprint_id st.teachers fp = some t)
    (hid : st.teachers.find? (fun u => u.teacher_id == t.teacher_id) = some t)
    (hrec : lookupDate t.attendance d = some r)
    (hci : r.check_in = some ci) (hco : r.check_out = none)
    (helapsed : cd * 60 ≤ normalizedElapsedSeconds ci now) :
    (attendanceEndpoint cd st fp d now).1
        = Response.act
            (Outcome.check_out (format_minutes_to_hours (normalizedElapsedSeconds ci now / 60)))
      ∧ storedRecord (attendanceEndpoint cd st fp d now).2 t.teacher_id d
        = some { check_in := some ci, check_out := some now,
                 working_hours :=
                   some (format_minutes_to_hours (normalizedElapsedSeconds ci now / 60)) } := by
  have hmp : cd ≤ minutesPassed ci now := by
    unfold minutesPassed; omega
  have hstep := attendanceStep_checkout_case cd now r ci hci hco hmp
  have hwh := calculate_working_hours_eq_format ci now
  constructor
  · simp [attendanceEndpoint, hmode, hfind, hrec, hstep, hwh]
  · simp only [attendanceEndpoint, hmode, if_pos, hfind, hrec, hstep]
    rw [storedRecord_updateAttendance st t.teacher_id d t _ hid]
    unfold create_check_out
    rw [hrec, lookupDate_setDate]
    obtain ⟨a, b, w⟩ := r
    simp only [DailyAttendance.check_in] at hci
    subst hci
    simp [hwh]

/-- Witness for C2: the spec scenario — check-in 09:00:00, event 09:15:00,
cooldown 15 → check-out recorded with working duration "0 hours 15 minutes". -/
theorem c2_witness :
    (attendanceEndpoint 15 wSt 7 d0 t915).1
        = Response.act (Outcome.check_out (format_minutes_to_hours 15))
      ∧ storedRecord (attendanceEndpoint 15 wSt 7 d0 t915).2 ("t1") d0
        = some ⟨some t900, some t915, some (format_minutes_to_hours 15)⟩ :=
  c2_checkout 15 wSt 7 d0 t915 wTeacher wRec t900 rfl (by decide) (by decide) (by decide)
    rfl rfl (by decide)

/-- C4: a person with no stored record on date `D` always checks in: the
first event of the day yields the check-in outcome and creates a record for
(person, `D`) holding only `check_in = now`. -/
theorem c4_first_event_check_in (cd : Nat) (st : SystemState) (fp : Int) (d : String)
    (now : Time) (t : Teacher)
    (hmode : st.mode = "attendance")
    (hfind : get_teacher_by_fingerprint_id st.teachers fp = some t)
    (hid : st.teachers.find? (fun u => u.teacher_id == t.teacher_id) = some t)
    (hrec : lookupDate t.attendance d = none) :
    (attendanceEndpoint cd st fp d now).1 = Response.act Outcome.check_in
      ∧ storedRecord (attendanceEndpoint cd st fp d now).2 t.teacher_id d
        = some { check_in := some now, check_out := none, working_hours := none } := by
  constructor
  · simp [attendanceEndpoint, hmode, hfind, hrec, attendanceStep]
  · simp only [attendanceEndpoint, hmode, if_pos, hfind, hrec]
    rw [show attendanceStep cd now none = (Outcome.check_in, newCheckInRecord now) from rfl]
    rw [storedRecord_updateAttendance st t.teacher_id d t _ hid]
    unfold create_check_in
    rw [lookupDate_setDate]
    rfl

/-- Witness for C4: a teacher with no record on `d0` checks in at 09:00:00
and the stored record holds only that check-in. -/
theorem c4_witness :
    (attendanceEndpoint 15 wStNew 7 d0 t900).1 = Response.act Outcome.check_in
      ∧ storedRecord (attendanceEndpoint 15 wStNew 7 d0 t900).2 ("t1") d0
        = some ⟨some t900, none, none⟩ :=
  c4_first_event_check_in 15 wStNew 7 d0 t900 wTeacherNew rfl (by decide) (by decide) rfl

/-- C5: for a person whose record on date `D` has both a check-in and a
check-out, any further event on `D` yields the already-completed rejection
and leaves the whole store unchanged — the state is terminal for the day. -/
theorem c5_already_completed (cd : Nat) (st : SystemState) (fp : Int) (d : String)
    (now : Time) (t : Teacher) (r : DailyAttendance) (ci co : Time)
    (hmode : st.mode = "attendance")
    (hfind : get_teacher_by_fingerprint_id st.teachers fp = some t)
    (hrec : lookupDate t.attendance d = some r)
    (hci : r.check_in = some ci) (hco : r.check_out = some co) :
    attendanceEndpoint cd st fp d now = (Response.act Outcome.completed, st) := by
  have hstep := attendanceStep_completed_case cd now r ci co hci hco
  simp [attendanceEndpoint, hmode, hfind, hrec, hstep]

/-- Witness for C5: a completed record rejects a 17:00:00 scan and the store
is unchanged. -/
theorem c5_witness :
    attendanceEndpoint 15 wStDone 7 d0 ⟨17, 0, 0⟩ = (Response.act Outcome.completed, wStDone) :=
  c5_already_completed 15 wStDone 7 d0 ⟨17, 0, 0⟩ wTeacherDone wRecDone t900 t915 rfl
    (by decide) (by decide) rfl rfl

/-- C3: per (person, date) the record follows the state machine
EMPTY → CHECKED_IN → COMPLETED: the first event always moves EMPTY to
CHECKED_IN; an event within the cooldown leaves a checked-in record
untouched; an event at or after the cooldown completes it; a completed
record is terminal; and along any sequence of events a `check_in` or
`check_out` value, once set, is never overwritten. -/
theorem c3_state_machine (cd : Nat) :
    (∀ (now : Time) (r : Option DailyAttendance), stateOf r = AttState.empty →
        (attendanceStep cd now r).1 = Outcome.check_in
          ∧ stateOf (some (attendanceStep cd now r).2) = AttState.checkedIn)
    ∧ (∀ (now : Time) (r : DailyAttendance) (ci : Time),
        r.check_in = some ci → r.check_out = none → minutesPassed ci now < cd →
        (attendanceStep cd now (some r)).2 = r)
    ∧ (∀ (now : Time) (r : DailyAttendance) (ci : Time),
        r.check_in = some ci → r.check_out = none → cd ≤ minutesPassed ci now →
        stateOf (some (attendanceStep cd now (some r)).2) = AttState.completed)
    ∧ (∀ (now : Time) (r : DailyAttendance),
        stateOf (some r) = AttState.completed → (attendanceStep cd now (some r)).2 = r)
    ∧ (∀ (evs : List Time) (r : Option DailyAttendance) (v : Time),
        recCheckIn r = some v → recCheckIn (runEvents cd evs r) = some v)
    ∧ (∀ (evs : List Time) (r : Option DailyAttendance) (v : Time),
        recCheckOut r = some v → recCheckOut (runEvents cd evs r) = some v) := by
  refine ⟨?_, ?_, ?_, ?_, ?_, ?_⟩
  · intro now r h
    match r with
    | none => constructor <;> rfl
    | some ⟨a, b, w⟩ =>
      match a, b, w with
      | some _, none, _ => simp [stateOf] at h
      | some _, some _, _ => simp [stateOf] at h
      | none, some _, _ => simp [stateOf] at h
      | none, none, some _ => simp [stateOf] at h
      | none, none, none => constructor <;> simp [attendanceStep, newCheckInRecord, stateOf]
  · intro now r ci hci hco hlt
    rw [attendanceStep_cooldown_case cd now r ci hci hco hlt]
  · intro now r ci hci hco hge
    rw [attendanceStep_checkout_case cd now r ci hci hco hge]
    simp [stateOf, hci]
  · intro now r h
    match r with
    | ⟨some ci, some co, w⟩ =>
      rw [attendanceStep_completed_case cd now _ ci co rfl rfl]
    | ⟨some _, none, _⟩ => simp [stateOf] at h
    | ⟨none, some _, _⟩ => simp [stateOf] at h
    | ⟨none, none, some _⟩ => simp [stateOf] at h
    | ⟨none, none, none⟩ => simp [stateOf] at h
  · intro evs
    induction evs with
    | nil => intro r v h; exact h
    | cons e es ih =>
      intro r v h
      exact ih _ v (by
        simp only [recCheckIn, Option.bind_some]
        exact attendanceStep_preserves_check_in cd e r v h)
  · intro evs
    induction evs with
    | nil => intro r v h; exact h
    | cons e es ih =>
      intro r v h
      exact ih _ v (by
        simp only [recCheckOut, Option.bind_some]
        exact attendanceStep_preserves_check_out cd e r v h)

/-- Witness for C3: a first event checks in; a 09:10:00 event leaves the
checked-in record unchanged; a 09:15:00 event completes it; a completed
record survives a later scan; and a check-in survives an event sequence. -/
theorem c3_witness :
    ((attendanceStep 15 t900 none).1 = Outcome.check_in
        ∧ stateOf (some (attendanceStep 15 t900 none).2) = AttState.checkedIn)
      ∧ (attendanceStep 15 t910 (some wRec)).2 = wRec
      ∧ stateOf (some (attendanceStep 15 t915 (some wRec)).2) = AttState.completed
      ∧ (attendanceStep 15 t910 (some wRecDone)).2 = wRecDone
      ∧ recCheckIn (runEvents 15 [t910, t915] (some wRec)) = some t900 :=
  ⟨(c3_state_machine 15).1 t900 none rfl,
   (c3_state_machine 15).2.1 t910 wRec t900 rfl rfl (by decide),
   (c3_state_machine 15).2.2.1 t915 wRec t900 rfl rfl (by decide),
   (c3_state_machine 15).2.2.2.1 t910 wRecDone (by decide),
   (c3_state_machine 15).2.2.2.2.1 [t910, t915] (some wRec) t900 rfl⟩

/-- C10: whenever the decision is the cooldown rejection, the reported
remaining-minutes value is at least 1 and at most the cooldown: flooring
the elapsed time to whole minutes before the strict comparison leaves
`elapsed_minutes ≤ cooldown - 1` in the rejection branch. -/
theorem c10_remaining_minutes_bounds (cd : Nat) (now : Time) (today : Option DailyAttendance)
    (rm : Nat) (h : (attendanceStep cd now today).1 = Outcome.cooldown rm) :
    1 ≤ rm ∧ rm ≤ cd := by
  match today with
  | none => simp [attendanceStep] at h
  | some ⟨a, b, w⟩ =>
    match a, b, w with
    | none, none, none => simp [attendanceStep] at h
    | none, none, some _ => simp [attendanceStep] at h
    | none, some _, _ => simp [attendanceStep] at h
    | some _, some _, _ => simp [attendanceStep] at h
    | some ci, none, w =>
      by_cases hlt : minutesPassed ci now < cd
      · have : cd - minutesPassed ci now = rm := by
          have h2 := h
          simp [attendanceStep, hlt] at h2
          exact h2
        omega
      · simp [attendanceStep, hlt] at h

/-- Witness for C10: the 09:10:00 rejection reports 5 minutes, within
[1, 15]. -/
theorem c10_witness : 1 ≤ 5 ∧ 5 ≤ 15 :=
  c10_remaining_minutes_bounds 15 t910 (some wRec) 5 (by decide)

/-- C6 as stated is false: in register mode the mode gate rejects the
attendance event before the teacher lookup, so an unknown fingerprint (99
is bound to nobody) does not yield the not-found outcome. -/
theorem c6_counterexample : (attendanceEndpoint 15 regSt 99 d0 t900).1 ≠ Response.notFound := by
  decide

/-- C6 (amended): when the system mode is `attendance`, an attendance event
whose fingerprint identifier is bound to no registered person yields the
not-found outcome and leaves the store unchanged; in `register` mode the
mode gate rejects the event first. -/
theorem c6_not_found (cd : Nat) (st : SystemState) (fp : Int) (d : String) (now : Time)
    (hmode : st.mode = "attendance")
    (hfind : get_teacher_by_fingerprint_id st.teachers fp = none) :
    attendanceEndpoint cd st fp d now = (Response.notFound, st) := by
  simp [attendanceEndpoint, hmode, hfind]

/-- Witness for C6 (amended): fingerprint 99 is unknown in attendance mode. -/
theorem c6_witness : attendanceEndpoint 15 wSt 99 d0 t900 = (Response.notFound, wSt) :=
  c6_not_found 15 wSt 99 d0 t900 rfl (by decide)

/-- C7: the mode gate rejects every registration event when the mode is not
`register` and every attendance event when the mode is not `attendance`;
the rejection depends only on the mode and mutates nothing — the whole
store, teachers included, is returned unchanged for arbitrary request data. -/
theorem c7_mode_gate (st : SystemState) (name dep : String) (fp : Option Int) (newId : String)
    (fpi : Int) (d : String) (now : Time) (cd : Nat) :
    (st.mode ≠ "register" →
        registerEndpoint st name dep fp newId = (RegResponse.modeError st.mode, st))
    ∧ (st.mode ≠ "attendance" →
        attendanceEndpoint cd st fpi d now = (Response.modeError st.mode, st)) := by
  constructor
  · intro h; simp [registerEndpoint, h]
  · intro h; simp [attendanceEndpoint, h]

/-- Witness for C7: a registration attempt in attendance mode and an
attendance scan in register mode are both rejected with the store unchanged. -/
theorem c7_witness :
    registerEndpoint wSt ("Bob") ("EEE") (some 9) ("t9")
        = (RegResponse.modeError ("attendance"), wSt)
      ∧ attendanceEndpoint 15 regSt 7 d0 t900 = (Response.modeError ("register"), regSt) :=
  ⟨(c7_mode_gate wSt ("Bob") ("EEE") (some 9) ("t9") 7 d0 t900 15).1 (by decide),
   (c7_mode_gate regSt ("Bob") ("EEE") (some 9) ("t9") 7 d0 t900 15).2 (by decide)⟩

/-- C8 as stated is false: field validation runs before the duplicate check,
so a registration whose fingerprint 7 is already bound but whose name is
empty is rejected as invalid, not as duplicate. -/
theorem c8_counterexample :
    (registerEndpoint regSt ("") ("EEE") (some 7) ("t2")).1 ≠ RegResponse.duplicate := by
  decide

/-- C8 (amended): a registration request that passes the mode gate and field
validation (mode `register`, name and department nonempty after stripping)
and whose fingerprint identifier is already bound to an existing person is
rejected as duplicate with no mutation, regardless of which valid name and
department were supplied. -/
theorem c8_duplicate_rejection (st : SystemState) (name dep : String) (f : Int)
    (newId : String) (t : Teacher)
    (hmode : st.mode = "register")
    (hn : pyStrip name ≠ "") (hd : pyStrip dep ≠ "")
    (hfind : get_teacher_by_fingerprint_id st.teachers f = some t) :
    registerEndpoint st name dep (some f) newId = (RegResponse.duplicate, st) := by
  simp [registerEndpoint, hmode, hn, hd, hfind]

/-- Witness for C8 (amended): registering name "Bob" against the already
bound fingerprint 7 is rejected as duplicate and the store is unchanged. -/
theorem c8_witness :
    registerEndpoint regSt ("Bob") ("EEE") (some 7) ("t2") = (RegResponse.duplicate, regSt) :=
  c8_duplicate_rejection regSt ("Bob") ("EEE") 7 ("t2") wTeacherNew rfl (by decide) (by decide)
    (by decide)

theorem digitChar_isDigit (d : Nat) : (digitChar d).isDigit = true := by
  unfold digitChar
  split_ifs <;> decide

theorem charVal_digitChar : ∀ d, d < 10 → charVal (digitChar d) = d := by decide

theorem natDigits_ne_nil (n : Nat) : natDigits n ≠ [] := by
  unfold natDigits natDigitsAux
  by_cases h : n < 10 <;> simp [h]

theorem natDigitsAux_all_digits :
    ∀ fuel n, n < fuel → ∀ c ∈ natDigitsAux fuel n, c.isDigit = true := by
  intro fuel
  induction fuel with
  | zero => intro n h; omega
  | succ f ih =>
    intro n h c hc
    unfold natDigitsAux at hc
    by_cases h10 : n < 10
    · simp [h10] at hc
      subst hc
      exact digitChar_isDigit n
    · simp [h10] at hc
      rcases hc with hc | hc
      · exact ih (n / 10) (by omega) c hc
      · subst hc
        exact digitChar_isDigit _

theorem natDigits_all_digits (n : Nat) : ∀ c ∈ natDigits n, c.isDigit = true :=
  natDigitsAux_all_digits (n + 1) n (Nat.lt_succ_self n)

theorem digitsToNat_append_digit (l : List Char) (c : Char) :
    digitsToNat (l ++ [c]) = digitsToNat l * 10 + charVal c := by
  unfold digitsToNat
  rw [List.foldl_append]
  rfl

theorem digitsToNat_natDigitsAux : ∀ fuel n, n < fuel → digitsToNat (natDigitsAux fuel n) = n := by
  intro fuel
  induction fuel with
  | zero => intro n h; omega
  | succ f ih =>
    intro n h
    unfold natDigitsAux
    by_cases h10 : n < 10
    · rw [if_pos h10]
      show 0 * 10 + charVal (digitChar n) = n
      rw [charVal_digitChar n h10]
      omega
    · rw [if_neg h10, digitsToNat_append_digit, ih (n / 10) (by omega),
        charVal_digitChar (n % 10) (by omega)]
      omega

theorem digitsToNat_natDigits (n : Nat) : digitsToNat (natDigits n) = n :=
  digitsToNat_natDigitsAux (n + 1) n (Nat.lt_succ_self n)

theorem takeDigits_cons_nondigit (c : Char) (cs : List Char) (h : c.isDigit = false) :
    takeDigits (c :: cs) = ([], c :: cs) := by
  simp [takeDigits, h]

theorem takeDigits_append_digits (d r : List Char) (hd : ∀ c ∈ d, c.isDigit = true) :
    takeDigits (d ++ r) = (d ++ (takeDigits r).1, (takeDigits r).2) := by
  induction d with
  | nil => simp
  | cons c cs ih =>
    have hc : c.isDigit = true := hd c (by simp)
    simp [takeDigits, hc, ih (fun x hx => hd x (by simp [hx]))]

theorem searchNum_skip_nondigits (lit p r : List Char) (hp : ∀ c ∈ p, c.isDigit = false) :
    searchNum lit (p ++ r) = searchNum lit r := by
  induction p with
  | nil => rfl
  | cons c cs ih =>
    have hc : c.isDigit = false := hp c (by simp)
    have hm : matchNumBefore lit (c :: (cs ++ r)) = none := by
      simp [matchNumBefore, hc]
    show searchNum lit (c :: (cs ++ r)) = searchNum lit r
    rw [searchNum, hm]
    exact ih (fun x hx => hp x (by simp [hx]))

theorem searchNum_skip_digits (lit d r : List Char) (hd : ∀ c ∈ d, c.isDigit = true)
    (hfail : leadsWith lit (skipSpaces (takeDigits r).2) = false) :
    searchNum lit (d ++ r) = searchNum lit r := by
  induction d with
  | nil => rfl
  | cons c cs ih =>
    have hc : c.isDigit = true := hd c (by simp)
    have hcs : ∀ x ∈ cs, x.isDigit = true := fun x hx => hd x (by simp [hx])
    have htd : takeDigits (c :: (cs ++ r)) = ((c :: cs) ++ (takeDigits r).1, (takeDigits r).2) :=
      takeDigits_append_digits (c :: cs) r hd
    have hm : matchNumBefore lit (c :: (cs ++ r)) = none := by
      simp [matchNumBefore, hc, htd, hfail]
    show searchNum lit (c :: (cs ++ r)) = searchNum lit r
    rw [searchNum, hm]
    exact ih hcs

theorem searchNum_at_digits (lit dgs rest : List Char) (c0 : Char) (cs0 : List Char)
    (hcons : dgs = c0 :: cs0)
    (hd : ∀ c ∈ dgs, c.isDigit = true)
    (hrest : takeDigits rest = ([], rest))
    (hlit : leadsWith lit (skipSpaces rest) = true) :
    searchNum lit (dgs ++ rest) = some (digitsToNat dgs) := by
  subst hcons
  have hc : c0.isDigit = true := hd c0 (by simp)
  have htd : takeDigits (c0 :: (cs0 ++ rest)) = ((c0 :: cs0) ++ [], rest) := by
    have h2 := takeDigits_append_digits (c0 :: cs0) rest hd
    rw [hrest] at h2
    exact h2
  have hm : matchNumBefore lit (c0 :: (cs0 ++ rest)) = some (digitsToNat (c0 :: cs0)) := by
    simp [matchNumBefore, hc, htd, hlit]
  show searchNum lit (c0 :: (cs0 ++ rest)) = some (digitsToNat (c0 :: cs0))
  rw [searchNum, hm]

/-- C9: parsing the working-duration string produced by formatting any
whole-minute count recovers exactly that count —
`parse_working_hours_to_minutes` is a left inverse of
`format_minutes_to_hours` at minute granularity. -/
theorem c9_format_parse_roundtrip (m : Nat) :
    parse_working_hours_to_minutes (format_minutes_to_hours m) = m := by
  obtain ⟨ch, dh, hH⟩ : ∃ c cs, natDigits (m / 60) = c :: cs := by
    cases hnd : natDigits (m / 60) with
    | nil => exact absurd hnd (natDigits_ne_nil _)
    | cons c cs => exact ⟨c, cs, rfl⟩
  obtain ⟨cm, dm, hM⟩ : ∃ c cs, natDigits (m % 60) = c :: cs := by
    cases hnd : natDigits (m % 60) with
    | nil => exact absurd hnd (natDigits_ne_nil _)
    | cons c cs => exact ⟨c, cs, rfl⟩
  have hHd := natDigits_all_digits (m / 60)
  have hMd := natDigits_all_digits (m % 60)
  have hdata : (format_minutes_to_hours m).data
      = natDigits (m / 60) ++ (hoursSep ++ (natDigits (m % 60) ++ minutesSuffix)) := by
    unfold format_minutes_to_hours
    simp [List.append_assoc]
  have htdSep : ∀ xs : List Char, takeDigits (hoursSep ++ xs) = ([], hoursSep ++ xs) := by
    intro xs
    exact takeDigits_cons_nondigit ' ' _ (by decide)
  have hskipSep : ∀ xs : List Char,
      skipSpaces (hoursSep ++ xs) = ['h', 'o', 'u', 'r', 's', ' '] ++ xs := by
    intro xs
    rfl
  have hhours :
      searchNum hourLit (natDigits (m / 60) ++ (hoursSep ++ (natDigits (m % 60) ++ minutesSuffix)))
        = some (m / 60) := by
    rw [searchNum_at_digits hourLit _ _ ch dh hH hHd (htdSep _) (by rw [hskipSep]; rfl),
      digitsToNat_natDigits]
  have hminFail :
      leadsWith minuteLit
        (skipSpaces (takeDigits (hoursSep ++ (natDigits (m % 60) ++ minutesSuffix))).2) = false := by
    rw [htdSep]
    rw [hskipSep]
    rfl
  have hmin :
      searchNum minuteLit
          (natDigits (m / 60) ++ (hoursSep ++ (natDigits (m % 60) ++ minutesSuffix)))
        = some (m % 60) := by
    rw [searchNum_skip_digits minuteLit _ _ hHd hminFail,
      searchNum_skip_nondigits minuteLit hoursSep _ (by decide),
      searchNum_at_digits minuteLit _ _ cm dm hM hMd (by decide) (by decide),
      digitsToNat_natDigits]
  have hne : natDigits (m / 60) ++ (hoursSep ++ (natDigits (m % 60) ++ minutesSuffix)) ≠ [] := by
    rw [hH]
    simp
  unfold parse_working_hours_to_minutes
  rw [hdata, if_neg hne, hhours, hmin]
  show m / 60 * 60 + m % 60 = m
  omega

end AttSys
